import Mathlib

/-!
# Verification of the `akl` personal document archive

Shallow embedding of the core of `akl.py` (identifier normalisation, record
store, resolver, protocol codec, filename derivation, destination grouping,
annotation rewriting, import flow) together with proofs settling the frozen
claims about its specification.

Modelling conventions:
* Python strings are Lean `String`s; `str.upper`/`str.lower`/`isupper`/
  `islower` are modelled with their ASCII behaviour (`Char.toUpper` etc.),
  which agrees with Python on the ASCII inputs the claims are about.
* Python `pathlib.Path` values are modelled by their string form.
* Filesystems and stores are association lists `List (String × String)`
  from path/filename to file content (bytes modelled as `String`).
* `sha256` is an opaque parameter (`hash : String → String`): the claims
  never depend on the digest itself, only on equality of digests.
* Fallible Python code (raising exceptions) is modelled with `Except`.
-/

namespace Akl

/-! ## Core utility functions of the source (`maybe_of_list`, intersection) -/

/-- `maybe_of_list` from `akl.py`: returns the element of a singleton list,
`None` otherwise. -/
def maybe_of_list {α : Type} (l : List α) : Option α :=
  match l with
  | [x] => some x
  | _ => none

/-- `non_empty_intersection` from `akl.py`:
`len(set(l1).intersection(l2)) > 0`. -/
def non_empty_intersection (l1 l2 : List String) : Bool :=
  l1.any (fun x => l2.contains x)

/-- Python's `a or b` on an optional string: `None` and `""` are falsy. -/
def pyOr (o : Option String) (d : String) : String :=
  match o with
  | some s => if s = "" then d else s
  | none => d

/-- Python's `a or b` on a string: `""` is falsy. -/
def pyOrS (s d : String) : String :=
  if s = "" then d else s

/-- Association-list lookup, modelling a `dict` / filesystem lookup. -/
def alookup (kvs : List (String × String)) (k : String) : Option String :=
  match kvs with
  | [] => none
  | (k', v) :: rest => if k' = k then some v else alookup rest k

/-- Association-list overwrite-or-append, modelling `open(path, "wb")`. -/
def astore (kvs : List (String × String)) (k v : String) : List (String × String) :=
  match kvs with
  | [] => [(k, v)]
  | (k', v') :: rest => if k' = k then (k, v) :: rest else (k', v') :: astore rest k v

/-! ### Kernel-computable Python string primitives

The Lean core versions of several `String` operations (`splitOn`,
`toUpper`, `trim`, `replace`, `toNat?`) are defined by well-founded
recursion over byte positions and do not reduce definitionally, so the
Python string operations used by the source are modelled directly by
structural recursion over the character list. -/

/-- `str.split(sep)` for a one-character separator: splits at *every*
occurrence, keeping empty pieces (`"".split(" ") == [""]`). -/
def pySplitCharAux (sep : Char) : List Char → List Char → List (List Char)
  | [], acc => [acc.reverse]
  | c :: cs, acc =>
    if c = sep then acc.reverse :: pySplitCharAux sep cs []
    else pySplitCharAux sep cs (c :: acc)

def pySplitChar (sep : Char) (s : String) : List String :=
  (pySplitCharAux sep s.toList []).map String.mk

/-- `str.upper()` (ASCII behaviour). -/
def pyUpper (s : String) : String :=
  String.mk (s.toList.map Char.toUpper)

/-- `str.lower()` (ASCII behaviour). -/
def pyLower (s : String) : String :=
  String.mk (s.toList.map Char.toLower)

/-- `str.strip()`. -/
def pyStrip (s : String) : String :=
  String.mk (((s.toList.dropWhile Char.isWhitespace).reverse.dropWhile
    Char.isWhitespace).reverse)

/-- `s[:n]` (code-point slicing). -/
def pyTake (n : Nat) (s : String) : String :=
  String.mk (s.toList.take n)

/-- `str.replace(c, "")`: delete every occurrence of the character. -/
def pyDeleteChar (c : Char) (s : String) : String :=
  String.mk (s.toList.filter (fun x => x ≠ c))

/-- `sep.join(xs)`. -/
def pyJoinSep (sep : String) : List String → String
  | [] => ""
  | [x] => x
  | x :: xs => x ++ sep ++ pyJoinSep sep xs

def digitsToNat (cs : List Char) : Option Nat :=
  match cs with
  | [] => none
  | _ =>
    if cs.all Char.isDigit then
      some (cs.foldl (fun a c => a * 10 + (c.toNat - 48)) 0)
    else none

/-- First-occurrence deduplication (with an accumulator of already-seen
elements, so that it is structurally recursive and kernel-computable);
used to model Python's `list(set(xs))`, whose iteration order is
unspecified — only membership matters to the claims. -/
def dedupFAux {α : Type} [DecidableEq α] : List α → List α → List α
  | [], _ => []
  | x :: xs, seen =>
    if x ∈ seen then dedupFAux xs seen else x :: dedupFAux xs (x :: seen)

def dedupF {α : Type} [DecidableEq α] (l : List α) : List α :=
  dedupFAux l []

theorem mem_dedupFAux {α : Type} [DecidableEq α] (x : α) :
    ∀ (l seen : List α), x ∈ dedupFAux l seen ↔ x ∈ l ∧ x ∉ seen := by
  intro l
  induction l with
  | nil => simp [dedupFAux]
  | cons y ys ih =>
    intro seen
    by_cases hy : y ∈ seen
    · rw [dedupFAux, if_pos hy, ih]
      constructor
      · rintro ⟨h1, h2⟩
        exact ⟨List.mem_cons_of_mem _ h1, h2⟩
      · rintro ⟨h1, h2⟩
        rcases List.mem_cons.mp h1 with rfl | h1
        · exact absurd hy h2
        · exact ⟨h1, h2⟩
    · rw [dedupFAux, if_neg hy]
      constructor
      · intro h
        rcases List.mem_cons.mp h with rfl | h
        · exact ⟨List.mem_cons_self _ _, hy⟩
        · obtain ⟨h1, h2⟩ := (ih _).mp h
          exact ⟨List.mem_cons_of_mem _ h1,
            fun hs => h2 (List.mem_cons_of_mem _ hs)⟩
      · rintro ⟨h1, h2⟩
        rcases List.mem_cons.mp h1 with rfl | h1
        · exact List.mem_cons_self _ _
        · by_cases hx : x = y
          · exact hx ▸ List.mem_cons_self _ _
          · refine List.mem_cons_of_mem _ ((ih _).mpr ⟨h1, ?_⟩)
            intro hs
            rcases List.mem_cons.mp hs with h | h
            · exact hx h
            · exact h2 h

theorem mem_dedupF {α : Type} [DecidableEq α] (x : α) (l : List α) :
    x ∈ dedupF l ↔ x ∈ l := by
  rw [dedupF, mem_dedupFAux]
  simp

theorem dedupF_ne_nil {α : Type} [DecidableEq α] {x : α} {l : List α}
    (h : x ∈ l) : dedupF l ≠ [] := by
  intro hnil
  have := (mem_dedupF x l).mpr h
  rw [hnil] at this
  exact List.not_mem_nil x this

/-! ## Model of `urllib.parse.urlparse`

Only the components `akl.py` consumes (`scheme`, `netloc`, `path`,
`params`, `query`, `fragment`) are modelled, following CPython's
`urlsplit`/`_splitparams` string slicing.  `urlparse` below is the
(total) string-splitting computation; right after extracting the netloc,
CPython's `urlsplit` additionally raises `ValueError("Invalid IPv6 URL")`
when the netloc contains an unbalanced square bracket — that error path
is modelled by `invalid_ipv6_url`/`urlparse_checked` further down, which
compose the same splitting with the same check on the extracted netloc
(observationally identical to checking mid-parse, since the splitting is
pure).  CPython 3.11+ also validates the *content* of a balanced
bracketed host (another `ValueError`); no theorem in this file makes a
no-failure statement about netlocs containing brackets, so that
version-dependent validation is outside every statement's scope. -/

structure ParsedUrl where
  scheme : String
  netloc : String
  path : String
  params : String
  query : String
  fragment : String
deriving DecidableEq, Repr

/-- Characters allowed in a URL scheme (CPython `scheme_chars`). -/
def isSchemeChar (c : Char) : Bool :=
  c.isAlphanum || c = '+' || c = '-' || c = '.'

/-- Split a character list at the first occurrence of `c` (Python
`s.split(c, 1)` when it succeeds). -/
def splitFirst (c : Char) : List Char → Option (List Char × List Char)
  | [] => none
  | x :: xs =>
    if x = c then some ([], xs)
    else
      match splitFirst c xs with
      | some (a, b) => some (x :: a, b)
      | none => none

/-- CPython `_splitparams`: split `;params` off the last path segment. -/
def splitParams (cs : List Char) : List Char × List Char :=
  if cs.contains '/' then
    let idxFromEnd := (cs.reverse.findIdx? (fun c => c = '/')).getD 0
    let lastSlash := cs.length - 1 - idxFromEnd
    match splitFirst ';' (cs.drop lastSlash) with
    | some (a, b) => (cs.take lastSlash ++ a, b)
    | none => (cs, [])
  else
    match splitFirst ';' cs with
    | some (a, b) => (a, b)
    | none => (cs, [])

/-- Model of `urllib.parse.urlparse`. -/
def urlparse (url : String) : ParsedUrl :=
  let cs := url.toList
  -- scheme: `url[:i]` before the first ':' must start with an ASCII letter
  -- and contain only scheme characters; otherwise the whole string remains
  let (scheme, rest1) :=
    match splitFirst ':' cs with
    | some (before, after) =>
      if before ≠ [] ∧ (before.headD ' ').isAlpha ∧ before.all isSchemeChar then
        (before.map Char.toLower, after)
      else
        ([], cs)
    | none => ([], cs)
  -- netloc: only when the remainder starts with "//"
  let (netloc, rest2) :=
    match rest1 with
    | '/' :: '/' :: r =>
      match r.findIdx? (fun c => c = '/' || c = '?' || c = '#') with
      | some i => (r.take i, r.drop i)
      | none => (r, ([] : List Char))
    | _ => ([], rest1)
  -- fragment, then query
  let (rest3, fragment) :=
    match splitFirst '#' rest2 with
    | some (a, b) => (a, b)
    | none => (rest2, [])
  let (rest4, query) :=
    match splitFirst '?' rest3 with
    | some (a, b) => (a, b)
    | none => (rest3, [])
  let (path, params) :=
    if rest4.contains ';' then splitParams rest4 else (rest4, [])
  { scheme := String.mk scheme
    netloc := String.mk netloc
    path := String.mk path
    params := String.mk params
    query := String.mk query
    fragment := String.mk fragment }

/-- Python exceptions raised by the embedded code. -/
inductive PyErr where
  | valueError (msg : String)
  | attributeError (attr : String)
  | assertionError
  | indexError
deriving DecidableEq, Repr

/-- CPython's `urlsplit` check, on the extracted netloc:
`('[' in netloc and ']' not in netloc) or (']' in netloc and '[' not in
netloc)` raises `ValueError("Invalid IPv6 URL")`.  When no netloc is
extracted (`netloc = ""`) the condition is vacuously false, as in the
source, so computing it on the splitter's netloc is faithful. -/
def invalid_ipv6_url (url : String) : Bool :=
  let n := (urlparse url).netloc.toList
  (n.contains '[' && !(n.contains ']')) || (n.contains ']' && !(n.contains '['))

/-- `urllib.parse.urlparse` including `urlsplit`'s unbalanced-bracket
error path. -/
def urlparse_checked (url : String) : Except PyErr ParsedUrl :=
  if invalid_ipv6_url url then .error (.valueError "Invalid IPv6 URL")
  else .ok (urlparse url)

/-- A netloc containing no square bracket: on such references every
CPython version parses without raising. -/
def bracket_free (s : String) : Bool :=
  !(s.toList.contains '[') && !(s.toList.contains ']')

/-! ## Identifier normaliser (`identifier_of_uri`) -/

/-- The host-dispatch computation of `identifier_of_uri` from `akl.py`
(canonicalise arXiv and DOI URLs, return every other reference
unchanged), over the splitter `urlparse`.  The source function begins
with `parsed = urlparse(uri)`, which can raise; the full embedding
including that error path is `identifier_of_uri_checked` below.  The
resolver (`maybe_resolve_uri`) is stated over this computation; on a
reference whose netloc triggers the bracket error the source resolver
propagates the exception instead of resolving. -/
def identifier_of_uri (uri : String) : String :=
  let parsed := urlparse uri
  if parsed.scheme = "https" ∨ parsed.scheme = "http" then
    if parsed.netloc = "arxiv.org" then
      "arXiv:" ++ parsed.path.drop 5
    else if parsed.netloc = "doi.org" ∨ parsed.netloc = "dx.doi.org" then
      "doi:" ++ parsed.path.drop 1
    else uri
  else uri

/-- `identifier_of_uri` from `akl.py`, in full: `urlparse` (with its
`ValueError` path) followed by the host dispatch. -/
def identifier_of_uri_checked (uri : String) : Except PyErr String :=
  match urlparse_checked uri with
  | .error e => .error e
  | .ok parsed =>
    if parsed.scheme = "https" ∨ parsed.scheme = "http" then
      if parsed.netloc = "arxiv.org" then
        .ok ("arXiv:" ++ parsed.path.drop 5)
      else if parsed.netloc = "doi.org" ∨ parsed.netloc = "dx.doi.org" then
        .ok ("doi:" ++ parsed.path.drop 1)
      else .ok uri
    else .ok uri

/-! ## Document metadata (`PdfMetaData`) and filename derivation -/

/-- `PdfMetaData` from `akl.py` (pydantic model). -/
structure PdfMetaData where
  checksum : String
  identifiers : List String
  filename : String
  title : Option String := none
  authors : List String := []
  year : Option String := none
  publisher : Option String := none
deriving DecidableEq, Repr

/-- The stop-word list of `generate_name`. -/
def stopWords : List String :=
  ["the", "all", "any", "a", "one", "on", "of", "in", "where", "when"]

/-- The publisher filler words excluded by `generate_name`. -/
def fillerWords : List String :=
  ["Annual", "Proceedings", "Symposium"]

/-- `word[0].isupper() and word[1].islower()` (guarded by `len(word) > 2`). -/
def isUpperLower (w : String) : Bool :=
  match w.toList with
  | c0 :: c1 :: _ => c0.isUpper && c1.isLower
  | _ => false

/-- `generate_name` from `akl.py`.  The source asserts `m.checksum != ""`
before computing; the computation itself is total and is modelled as such
(theorems about it carry the non-empty-checksum precondition).
`itertools.islice(gen, 1)` keeps only the *first* element of the generator,
hence `keptTitleWords.take 1` below. -/
def generate_name (m : PdfMetaData) : String :=
  let authors := pyUpper (String.join (m.authors.map (fun a => pyTake 2 a)))
  let year := pyOr m.year "____"
  let keptTitleWords :=
    ((pySplitChar ' ' (pyOr m.title "")).map pyLower).filter
      (fun w => !(stopWords.contains w))
  let title := pyDeleteChar '-' (pyOrS (String.join (keptTitleWords.take 1)) "untitled")
  let venueSrc := pyOr m.publisher "L O C A L"
  let venue := String.join ((pySplitChar ' ' venueSrc).filterMap (fun w =>
    if !(fillerWords.contains w) && decide (2 < w.length) && isUpperLower w
    then some (pyTake 1 w) else none))
  pyJoinSep " "
    (([authors, year, title, venue, m.checksum]).filter (fun x => x ≠ ""))

/-- The filename derivation as the claim words it (used only to compare with
the source's `generate_name`): the title fragment *skips* the first
remaining token and concatenates the rest, and an absent publisher yields
the placeholder itself as the venue component. -/
def generate_name_claim (m : PdfMetaData) : String :=
  let authors := pyUpper (String.join (m.authors.map (fun a => pyTake 2 a)))
  let year := pyOr m.year "____"
  let keptTitleWords :=
    ((pySplitChar ' ' (pyOr m.title "")).map pyLower).filter
      (fun w => !(stopWords.contains w))
  let title := pyDeleteChar '-' (pyOrS (String.join (keptTitleWords.drop 1)) "untitled")
  let venue :=
    match m.publisher with
    | none => "L O C A L"
    | some p => String.join ((pySplitChar ' ' p).filterMap (fun w =>
        if !(fillerWords.contains w) && decide (2 < w.length) && isUpperLower w
        then some (pyTake 1 w) else none))
  pyJoinSep " "
    (([authors, year, title, venue, m.checksum]).filter (fun x => x ≠ ""))

/-- The amended filename derivation, clause by clause:
(1) author initials, (2) year or placeholder, (3) the *first* remaining
title token after stop-word removal (placeholder when nothing remains),
hyphens stripped, (4) the venue abbreviation computed from the publisher
*or the placeholder string* (so an absent publisher abbreviates to the
empty component), (5) the checksum; non-empty components joined by
spaces. -/
def amended_authors_component (m : PdfMetaData) : String :=
  pyUpper (String.join (m.authors.map (fun a => pyTake 2 a)))

def amended_year_component (m : PdfMetaData) : String :=
  pyOr m.year "____"

def amended_title_component (m : PdfMetaData) : String :=
  let keptTitleWords :=
    ((pySplitChar ' ' (pyOr m.title "")).map pyLower).filter
      (fun w => !(stopWords.contains w))
  pyDeleteChar '-' (pyOrS (String.join (keptTitleWords.take 1)) "untitled")

def amended_venue_component (m : PdfMetaData) : String :=
  String.join ((pySplitChar ' ' (pyOr m.publisher "L O C A L")).filterMap (fun w =>
    if !(fillerWords.contains w) && decide (2 < w.length) && isUpperLower w
    then some (pyTake 1 w) else none))

def generate_name_amended (m : PdfMetaData) : String :=
  pyJoinSep " "
    (([amended_authors_component m, amended_year_component m,
       amended_title_component m, amended_venue_component m,
       m.checksum]).filter (fun x => x ≠ ""))

/-! ## Record store queries (`PdfLibrary`) -/

/-- `PdfLibrary.duplicates`: all records whose checksum equals the
argument. -/
def duplicates (data : List PdfMetaData) (checksum : String) : List PdfMetaData :=
  data.filter (fun d => d.checksum == checksum)

/-- The similarity predicate of `PdfLibrary.find_similar_to`. -/
def similarPred (cand d : PdfMetaData) : Bool :=
  d.checksum == cand.checksum
    || non_empty_intersection cand.identifiers d.identifiers

/-- `PdfLibrary.find_similar_to`: the unique similar record, absent when
zero or several records are similar. -/
def find_similar_to (data : List PdfMetaData) (m : PdfMetaData) : Option PdfMetaData :=
  maybe_of_list (data.filter (similarPred m))

/-! ## Resolver

The filesystem is an association list from path strings to file contents;
`hash` is the (opaque) sha256 hex digest of a file's content, so
`hash content` models `sha256sum(p)`. -/

/-- `maybe_resolve_filepath`: path match by content checksum, unique-match
only. -/
def maybe_resolve_filepath (hash : String → String) (fs : List (String × String))
    (p : String) (data : List PdfMetaData) : Option PdfMetaData :=
  match alookup fs p with
  | none => none
  | some content =>
    match duplicates data (hash content) with
    | [d] => some d
    | _ => none

/-- `maybe_resolve_identifier`: unique record whose identifier set contains
the identifier. -/
def maybe_resolve_identifier (i : String) (data : List PdfMetaData) :
    Option PdfMetaData :=
  maybe_of_list (data.filter (fun m => m.identifiers.contains i))

/-- `maybe_resolve_uri`: path match first, then normalised identifier
match, else absent. -/
def maybe_resolve_uri (hash : String → String) (fs : List (String × String))
    (uri : String) (data : List PdfMetaData) : Option PdfMetaData :=
  match maybe_resolve_filepath hash fs uri data with
  | some m1 => some m1
  | none =>
    match maybe_resolve_identifier (identifier_of_uri uri) data with
    | some m2 => some m2
    | none => none

/-! ## Protocol commands and codec -/

/-- `OpenArgs` (paths modelled as strings). -/
structure OpenArgs where
  uri : String
  storage : String
  dest : Option String := none
  page : Option Int := none
  bibtex : Option String := none
  knowledge : Option String := none
deriving DecidableEq, Repr

/-- `ImportArgs`. -/
structure ImportArgs where
  download : String
  document : PdfMetaData
  storage : String
deriving DecidableEq, Repr

/-- `CiteArgs`. -/
structure CiteArgs where
  uri : String
  storage : String
  dest : String
  page : Int
  bibtex : Option String := none
  knowledge : Option String := none
deriving DecidableEq, Repr

/-- `AppArgs = Union[OpenArgs, ImportArgs, CiteArgs]`. -/
inductive AppArgs where
  | openCmd (a : OpenArgs)
  | importCmd (a : ImportArgs)
  | citeCmd (a : CiteArgs)
deriving DecidableEq, Repr

/-- `urllib.parse.quote_plus` on one character: ASCII alphanumerics and
`_.-~` kept, space to `+`, everything else percent-encoded (UTF-8 bytes,
uppercase hex). -/
def hexDigits : List Char := "0123456789ABCDEF".toList

/-- The UTF-8 bytes of a character (as naturals `< 256`). -/
def utf8Bytes (c : Char) : List Nat :=
  let n := c.toNat
  if n < 128 then [n]
  else if n < 2048 then [192 + n / 64, 128 + n % 64]
  else if n < 65536 then
    [224 + n / 4096, 128 + (n / 64) % 64, 128 + n % 64]
  else
    [240 + n / 262144, 128 + (n / 4096) % 64, 128 + (n / 64) % 64, 128 + n % 64]

def hexByteN (b : Nat) : String :=
  String.mk [hexDigits.getD (b / 16) '0', hexDigits.getD (b % 16) '0']

def quote_plus (s : String) : String :=
  String.join (s.toList.map (fun c =>
    if c = ' ' then "+"
    else if c.isAlphanum || c = '_' || c = '.' || c = '-' || c = '~' then
      String.singleton c
    else
      String.join ((utf8Bytes c).map (fun b => "%" ++ hexByteN b))))

/-- `urllib.parse.urlencode` over the (ordered) field dict of a command. -/
def urlencode (ps : List (String × String)) : String :=
  pyJoinSep "&" (ps.map (fun kv => quote_plus kv.1 ++ "=" ++ quote_plus kv.2))

def optField (k : String) (v : Option String) : List (String × String) :=
  match v with
  | some s => [(k, s)]
  | none => []

def optIntField (k : String) (v : Option Int) : List (String × String) :=
  match v with
  | some n => [(k, toString n)]
  | none => []

/-- `args.dict(exclude_none=True)` for `OpenArgs`, in field-declaration
order, values rendered with `str()`. -/
def openDict (o : OpenArgs) : List (String × String) :=
  [("uri", o.uri), ("storage", o.storage)]
    ++ optField "dest" o.dest ++ optIntField "page" o.page
    ++ optField "bibtex" o.bibtex ++ optField "knowledge" o.knowledge

/-- `args.dict(exclude_none=True)` for `CiteArgs`. -/
def citeDict (c : CiteArgs) : List (String × String) :=
  [("uri", c.uri), ("storage", c.storage), ("dest", c.dest), ("page", toString c.page)]
    ++ optField "bibtex" c.bibtex ++ optField "knowledge" c.knowledge

def uri_of_cite (c : CiteArgs) : String :=
  "akl://cite/?" ++ urlencode (citeDict c)

def uri_of_open (o : OpenArgs) : String :=
  "akl://open-document/?" ++ urlencode (openDict o)

/-- `uri_of_args` from `akl.py`.  The source's `isinstance` chain tests
`CiteArgs`, then `OpenArgs`, then — in the branch that assigns the
`import-document` scheme — `OpenArgs` **again** (a dead test: it can never
be reached with a value that is an `OpenArgs`), so an `ImportArgs` value
falls through to `raise ValueError(f"Invalid args {args}")` (the message
interpolates the arguments; only its fixed part is modelled). -/
def uri_of_args : AppArgs → Except PyErr String
  | .citeCmd c => .ok (uri_of_cite c)
  | .openCmd o => .ok (uri_of_open o)
  | .importCmd _ => .error (.valueError "Invalid args")

/-! ## Protocol decoding (`args_of_uri`)

The decoder is embedded from the point after the standard-library calls
`urlparse` and `parse_qs`: a `UriParts` value carries the scheme, the
authority and the multi-valued query dictionary those calls produce.
`PdfMetaData.parse_raw` (pydantic JSON parsing of the serialized record)
is an opaque parameter `pr`; `pr s = none` models a parse failure, in
which case the source leaves the raw string in the query dict and
`ImportArgs.parse_obj` then rejects it (a string is not a valid record). -/

structure UriParts where
  scheme : String
  netloc : String
  query : List (String × List String)

/-- Decode errors: `unknownProtocol`/`unknownCommand` are the two explicit
`ValueError`s of the source; `validation` is pydantic's `ValidationError`
(also a `ValueError` subclass) for a missing or uncoercible field. -/
inductive DecodeError where
  | unknownProtocol (scheme : String)
  | unknownCommand (netloc : String)
  | validation (field : String)
deriving DecidableEq, Repr

/-- `{k: v[0] for (k, v) in query.items() if len(v) > 0 and v[0] is not None}`
(`parse_qs` never yields `None` values, so only emptiness matters). -/
def firstVals (q : List (String × List String)) : List (String × String) :=
  q.filterMap (fun kv =>
    match kv.2 with
    | [] => none
    | v :: _ => some (kv.1, v))

/-- Python `int(str)` coercion as pydantic applies it: surrounding
whitespace stripped, an optional sign, then decimal digits (underscore
separators and non-ASCII digits are not modelled). -/
def pyToInt (s : String) : Option Int :=
  match (pyStrip s).toList with
  | [] => none
  | '+' :: rest => (digitsToNat rest).map Int.ofNat
  | '-' :: rest => (digitsToNat rest).map (fun n => -(n : Int))
  | t => (digitsToNat t).map Int.ofNat

def reqField (q : List (String × String)) (k : String) : Except DecodeError String :=
  match alookup q k with
  | some v => .ok v
  | none => .error (.validation k)

def optIntParse (q : List (String × String)) (k : String) :
    Except DecodeError (Option Int) :=
  match alookup q k with
  | none => .ok none
  | some s =>
    match pyToInt s with
    | some n => .ok (some n)
    | none => .error (.validation k)

def reqIntParse (q : List (String × String)) (k : String) : Except DecodeError Int :=
  match alookup q k with
  | none => .error (.validation k)
  | some s =>
    match pyToInt s with
    | some n => .ok n
    | none => .error (.validation k)

/-- `OpenArgs.parse_obj` (pydantic: required fields in declaration order). -/
def parse_obj_open (q : List (String × String)) : Except DecodeError OpenArgs :=
  match reqField q "uri" with
  | .error e => .error e
  | .ok uri =>
    match reqField q "storage" with
    | .error e => .error e
    | .ok storage =>
      match optIntParse q "page" with
      | .error e => .error e
      | .ok page =>
        .ok { uri := uri, storage := storage, dest := alookup q "dest",
              page := page, bibtex := alookup q "bibtex",
              knowledge := alookup q "knowledge" }

/-- `CiteArgs.parse_obj`. -/
def parse_obj_cite (q : List (String × String)) : Except DecodeError CiteArgs :=
  match reqField q "uri" with
  | .error e => .error e
  | .ok uri =>
    match reqField q "storage" with
    | .error e => .error e
    | .ok storage =>
      match reqField q "dest" with
      | .error e => .error e
      | .ok dest =>
        match reqIntParse q "page" with
        | .error e => .error e
        | .ok page =>
          .ok { uri := uri, storage := storage, dest := dest, page := page,
                bibtex := alookup q "bibtex", knowledge := alookup q "knowledge" }

/-- The `import-document` handling: `query["document"]` is re-parsed as a
record inside `try/except` (failures swallowed), then
`ImportArgs.parse_obj` validates `download`, `document`, `storage` in
declaration order. -/
def parse_obj_import (pr : String → Option PdfMetaData)
    (q : List (String × String)) : Except DecodeError ImportArgs :=
  match alookup q "download" with
  | none => .error (.validation "download")
  | some dl =>
    match alookup q "document" with
    | none => .error (.validation "document")
    | some ds =>
      match pr ds with
      | none => .error (.validation "document")
      | some doc =>
        match alookup q "storage" with
        | none => .error (.validation "storage")
        | some st => .ok { download := dl, document := doc, storage := st }

/-- `args_of_uri` from `akl.py` (after `urlparse`/`parse_qs`). -/
def args_of_uri (pr : String → Option PdfMetaData) (u : UriParts) :
    Except DecodeError AppArgs :=
  if u.scheme ≠ "akl" then .error (.unknownProtocol u.scheme)
  else
    let query := firstVals u.query
    if u.netloc = "open-document" then (parse_obj_open query).map AppArgs.openCmd
    else if u.netloc = "cite" then (parse_obj_cite query).map AppArgs.citeCmd
    else if u.netloc = "import-document" then
      (parse_obj_import pr query).map AppArgs.importCmd
    else .error (.unknownCommand u.netloc)

/-- The required query fields of each protocol variant. -/
def requiredFields (netloc : String) : List String :=
  if netloc = "open-document" then ["uri", "storage"]
  else if netloc = "cite" then ["uri", "storage", "dest", "page"]
  else if netloc = "import-document" then ["download", "document", "storage"]
  else []

/-! ## Named destinations and grouping (`destinations_from_pdf`)

A pdf numeric object is either a pypdf `NumberObject` (an `int` subclass,
so `isinstance(x, float)` is false) or a `FloatObject` (a `float`
subclass); values are idealised as rationals.  A navigation entry carries
a title and optional coordinates; `reader.get_destination_page_number` is
an oracle `pf : DestInfo → Option Int` (`none` models an unresolvable
page, for which `isinstance(page, int)` fails).

Python `dict` keys compare by value: `NumberObject(1)` and
`FloatObject(1.0)` are the *same* key (`1 == 1.0`), and the dict retains
the first-inserted key object, which is what the final `isinstance`
checks inspect.  The grouping therefore uses the numeric key `nkeyOf` for
matching while remembering the first-encountered representative key. -/

inductive PdfNum where
  | int (n : Int)
  | float (q : ℚ)
deriving DecidableEq, Repr

def pdfNumToQ : PdfNum → ℚ
  | .int n => (n : ℚ)
  | .float q => q

structure DestInfo where
  title : String
  left : Option PdfNum
  top : Option PdfNum
deriving DecidableEq, Repr

/-- `Destination` from `akl.py` (pydantic model with `left top : float`). -/
structure Destination where
  left : ℚ
  top : ℚ
  page : Int
  names : List String
deriving DecidableEq, Repr

/-- The raw dict key `(info.left, info.top, p)`. -/
abbrev LocKey := Option PdfNum × Option PdfNum × Option Int

/-- The value the dict actually hashes/compares the key by. -/
abbrev NKey := Option ℚ × Option ℚ × Option Int

def keyOf (pf : DestInfo → Option Int) (i : DestInfo) : LocKey :=
  (i.left, i.top, pf i)

def normOf : Option PdfNum → Option ℚ
  | some n => some (pdfNumToQ n)
  | none => none

def nkeyOf (pf : DestInfo → Option Int) (i : DestInfo) : NKey :=
  (normOf i.left, normOf i.top, pf i)

/-- The entry filter of the grouping loop:
`info.title.strip() != "" and info.left is not None and info.top is not None`. -/
def keepInfo (i : DestInfo) : Bool :=
  (pyStrip i.title != "") && i.left.isSome && i.top.isSome

/-- One group of the `locations` dict: its numeric key, the first-inserted
key object, and the entries in encounter order. -/
structure GroupEntry where
  nkey : NKey
  rep : LocKey
  infos : List DestInfo
deriving DecidableEq, Repr

/-- `locations.setdefault(k, []).append(info)` for one entry. -/
def addLoc (pf : DestInfo → Option Int) (gs : List GroupEntry) (i : DestInfo) :
    List GroupEntry :=
  if gs.any (fun g => g.nkey == nkeyOf pf i) then
    gs.map (fun g =>
      if g.nkey == nkeyOf pf i then { g with infos := g.infos ++ [i] } else g)
  else gs ++ [{ nkey := nkeyOf pf i, rep := keyOf pf i, infos := [i] }]

/-- `destinations_from_pdf` from `akl.py`: filter entries, build the
location dict, then keep the groups whose (representative) key has
`float` coordinates and a resolved (`int`) page. -/
def destinations_from_pdf (pf : DestInfo → Option Int) (infos : List DestInfo) :
    List Destination :=
  let kept := infos.filter keepInfo
  let locations := kept.foldl (addLoc pf) []
  locations.filterMap (fun g =>
    match g.rep with
    | (some (.float l), some (.float t), some p) =>
      some { left := l, top := t, page := p, names := g.infos.map (fun d => d.title) }
    | _ => none)

/-- Declarative grouping, as the (amended) claim words it: the first kept
entry opens a group collecting every kept entry with the same key (titles
in encounter order), and grouping continues on the remainder.  Defined
with a fuel argument (the list length suffices) so that it is structural
and kernel-computable. -/
def groupLocsF (pf : DestInfo → Option Int) : Nat → List DestInfo → List GroupEntry
  | _, [] => []
  | 0, _ :: _ => []
  | fuel + 1, i :: is =>
    let nk := nkeyOf pf i
    { nkey := nk, rep := keyOf pf i,
      infos := i :: is.filter (fun j => nkeyOf pf j == nk) }
      :: groupLocsF pf fuel (is.filter (fun j => !(nkeyOf pf j == nk)))

def groupLocs (pf : DestInfo → Option Int) (l : List DestInfo) : List GroupEntry :=
  groupLocsF pf l.length l

theorem groupLocsF_fuel_irrelevant (pf : DestInfo → Option Int) :
    ∀ (fuel1 : Nat) (l : List DestInfo) (fuel2 : Nat),
      l.length ≤ fuel1 → l.length ≤ fuel2 →
      groupLocsF pf fuel1 l = groupLocsF pf fuel2 l := by
  intro fuel1
  induction fuel1 with
  | zero =>
    intro l fuel2 h1 _
    rcases l with _ | ⟨i, is⟩
    · cases fuel2 <;> rfl
    · exact absurd h1 (by simp)
  | succ f1 ih =>
    intro l fuel2 h1 h2
    rcases l with _ | ⟨i, is⟩
    · cases fuel2 <;> rfl
    · rcases fuel2 with _ | f2
      · exact absurd h2 (by simp)
      · rw [groupLocsF, groupLocsF]
        congr 1
        exact ih _ f2
          (le_trans (List.length_filter_le _ _) (Nat.le_of_succ_le_succ h1))
          (le_trans (List.length_filter_le _ _) (Nat.le_of_succ_le_succ h2))

theorem groupLocs_nil (pf : DestInfo → Option Int) : groupLocs pf [] = [] := rfl

theorem groupLocs_cons (pf : DestInfo → Option Int) (i : DestInfo)
    (is : List DestInfo) :
    groupLocs pf (i :: is)
      = { nkey := nkeyOf pf i, rep := keyOf pf i,
          infos := i :: is.filter (fun j => nkeyOf pf j == nkeyOf pf i) }
        :: groupLocs pf (is.filter (fun j => !(nkeyOf pf j == nkeyOf pf i))) := by
  rw [groupLocs, List.length_cons, groupLocsF, groupLocs]
  congr 1
  exact groupLocsF_fuel_irrelevant pf is.length _ _
    (List.length_filter_le _ _) le_rfl

/-- The grouping as the amended claim describes it (still dropping groups
whose representative coordinates are not `float`s or whose page is
unresolved). -/
def destinations_spec (pf : DestInfo → Option Int) (infos : List DestInfo) :
    List Destination :=
  let kept := infos.filter keepInfo
  (groupLocs pf kept).filterMap (fun g =>
    match g.rep with
    | (some (.float l), some (.float t), some p) =>
      some { left := l, top := t, page := p, names := g.infos.map (fun d => d.title) }
    | _ => none)

/-- The grouping exactly as the original claim words it (used only as the
comparison point for the counterexample): entries with a blank title or
missing coordinate/page data are dropped, the remainder is grouped by
exact equality of `(left, top, resolved page number)`, and **each** group
becomes exactly one Destination — no floating-point restriction. -/
def destinations_claim (pf : DestInfo → Option Int) (infos : List DestInfo) :
    List Destination :=
  let kept := infos.filter (fun i =>
    (pyStrip i.title != "") && i.left.isSome && i.top.isSome && (pf i).isSome)
  (groupLocs pf kept).filterMap (fun g =>
    match g.nkey with
    | (some l, some t, some p) =>
      some { left := l, top := t, page := p, names := g.infos.map (fun d => d.title) }
    | _ => none)

/-! ## The annotations synthesised for a destination (`create_edited_pdf.linker`) -/

/-- The two annotation kinds built by `create_edited_pdf.linker` via
`AnnotationBuilder.free_text` (the fixed font/colour settings are not
modelled) and `AnnotationBuilder.link`. -/
inductive BuiltAnnot where
  | free_text (text : String) (rect : List ℚ)
  | link (rect : List ℚ) (url : String)
deriving DecidableEq, Repr

/-- `create_edited_pdf.linker`: a 4-unit marker square centred on the
destination plus a link annotation whose URL encodes a `CiteCommand`
using `d.names[0]` (nonempty for every produced destination) and
`d.page`. -/
def linker (args : OpenArgs) (d : Destination) : List BuiltAnnot :=
  let rect := [d.left - 2, d.top - 2, d.left + 2, d.top + 2]
  [ BuiltAnnot.free_text "A" rect,
    BuiltAnnot.link rect (uri_of_cite
      { uri := args.uri, storage := args.storage,
        bibtex := args.bibtex, knowledge := args.knowledge,
        dest := d.names.headD "", page := d.page }) ]

def isLinkAnnot : BuiltAnnot → Bool
  | .link _ _ => true
  | .free_text _ _ => false

def linkUrls (l : List BuiltAnnot) : List String :=
  l.filterMap (fun a =>
    match a with
    | .link _ url => some url
    | .free_text _ _ => none)

/-! ## The rewriter (`custom_pdf_creation`)

A document is pages (opaque content streams and other non-annotation
structure, plus an annotation list) together with opaque trailer
structure and the named-destination table.  An annotation is its optional
`/A → /URI` target plus opaque remaining content.  `add_annot`
appends to a page's annotation array; pypdf raises `IndexError` for an
out-of-range page number (Python-style negative indices count from the
end), modelled as a no-op since no output document exists in that case. -/

structure PdfAnnot where
  action_uri : Option String
  other : String
deriving DecidableEq, Repr

structure PdfPage where
  content : String
  nonAnnot : String
  annots : List PdfAnnot
deriving DecidableEq, Repr

structure PdfDoc where
  pages : List PdfPage
  trailer : String
  destInfos : List DestInfo
deriving DecidableEq, Repr

/-- The in-place `/URI` replacement performed on an annotation that
carries an action with a URI target. -/
def rewriteAnnot (rw : String → String) (a : PdfAnnot) : PdfAnnot :=
  match a.action_uri with
  | some uri => { a with action_uri := some (rw uri) }
  | none => a

def modifyPage (pages : List PdfPage) (i : Nat) (f : PdfPage → PdfPage) :
    List PdfPage :=
  match pages, i with
  | [], _ => []
  | p :: ps, 0 => f p :: ps
  | p :: ps, Nat.succ j => p :: modifyPage ps j f

/-- The writer's annotation-append call of the source (named after its
keyword arguments `page_number=n, annotation=a` there): appends the built
annotation to the given page's annotation array. -/
def add_annot (doc : PdfDoc) (n : Int) (a : PdfAnnot) : PdfDoc :=
  let i : Int := if n < 0 then n + doc.pages.length else n
  if i < 0 then doc
  else
    { doc with
      pages := modifyPage doc.pages i.toNat
        (fun p => { p with annots := p.annots ++ [a] }) }

/-- `custom_pdf_creation` from `akl.py`: clone the document, rewrite every
existing URI action through `rewriter`, then append the `linkerF`
annotations of every named destination on its page. -/
def custom_pdf_creation (pf : DestInfo → Option Int) (reader : PdfDoc)
    (linkerF : Destination → List PdfAnnot) (rewriter : String → String) :
    PdfDoc :=
  let writer :=
    { reader with
      pages := reader.pages.map (fun p =>
        { p with annots := p.annots.map (rewriteAnnot rewriter) }) }
  (destinations_from_pdf pf reader.destInfos).foldl
    (fun w d => (linkerF d).foldl (fun w2 obj => add_annot w2 d.page obj) w)
    writer

/-! ## The import flow (`do_import`)

State is the record list plus the raw-originals store; the edit/cache
directories touched by `do_open` are outside it — `do_open` never appends
records, never writes the raw store, and re-saves the record list
unchanged, so it is invisible at this granularity.  The fetch collaborator
is an oracle (`fetchStatus`/`fetchContent`); `hash` is the sha256 hex
digest.

Two slips of the source are modelled faithfully:
* on a non-success fetch status, the failure log message evaluates
  `args.newurl` — `ImportArgs` has no such attribute, so an
  `AttributeError` is raised before the `return None` line is reached;
* in the pre-download merge branch, `do_open` is invoked on
  `m.identifiers[0]`, which raises `IndexError` when the merged
  identifier set is empty (the state has already been saved by then). -/

structure LibState where
  data : List PdfMetaData
  raw : List (String × String)
deriving DecidableEq, Repr

structure ImportEnv where
  localFiles : List (String × String)
  fetchStatus : Int
  fetchContent : String
  hash : String → String

/-- Obtaining the raw bytes: a local file if `args.download` names one,
otherwise the remote fetch (`requests`/`httpx`, one oracle). -/
def contentOf (env : ImportEnv) (download : String) : Except PyErr String :=
  match alookup env.localFiles download with
  | some c => .ok c
  | none =>
    if env.fetchStatus ≠ 200 then .error (.attributeError "newurl")
    else .ok env.fetchContent

/-- `do_import` from `akl.py`. -/
def do_import (env : ImportEnv) (st : LibState) (args : ImportArgs) :
    Except PyErr (Option PdfMetaData) × LibState :=
  match find_similar_to st.data args.document with
  | some m =>
    -- merge identifiers into the (unique) similar record, save, re-open
    let merged := dedupF (args.document.identifiers ++ m.identifiers)
    let st1 : LibState :=
      { st with data := st.data.map (fun d =>
          if similarPred args.document d then { d with identifiers := merged } else d) }
    match merged with
    | [] => (.error .indexError, st1)
    | _ :: _ => (.ok (some { m with identifiers := merged }), st1)
  | none =>
    match contentOf env args.download with
    | .error e => (.error e, st)
    | .ok content =>
      let checksum := env.hash content
      match duplicates st.data checksum with
      | [m] =>
        -- post-download dedup: merge identifiers (and the download
        -- reference) into the existing record; raw store untouched
        let merged := dedupF (args.document.identifiers ++ m.identifiers ++ [args.download])
        let st1 : LibState :=
          { st with data := st.data.map (fun d =>
              if d.checksum == checksum then { d with identifiers := merged } else d) }
        (.ok (some { m with identifiers := merged }), st1)
      | _ =>
        -- new record: assign checksum, derive the filename
        -- (`generate_name` asserts a non-empty checksum), write the raw
        -- bytes, append and save
        if checksum = "" then (.error .assertionError, st)
        else
          let doc1 := { args.document with checksum := checksum }
          let name := generate_name doc1
          let doc2 := { doc1 with filename := name }
          (.ok (some doc2),
            { st with data := st.data ++ [doc2], raw := astore st.raw name content })

/-! ## Concrete instances used by witnesses and counterexamples -/

/-- The concrete metadata record on which the claimed filename derivation
differs from the code. -/
def cexMeta : PdfMetaData :=
  { checksum := "c", identifiers := [], filename := "",
    title := some "on the word problem", authors := ["Alice", "Bob"],
    year := some "2020", publisher := some "Springer" }

/-- The concrete resolver scenario: a library holding two records with
the same checksum, and a file whose digest collides with both. -/
def hashW : String → String := fun c => "digest-" ++ c

def recA : PdfMetaData :=
  { checksum := "digest-X", identifiers := ["idA"], filename := "A" }

def recB : PdfMetaData :=
  { checksum := "digest-X", identifiers := ["idB"], filename := "B" }

def recC : PdfMetaData :=
  { checksum := "digest-Y", identifiers := ["idC"], filename := "C" }

/-- The fetch-failure import scenario: the download reference is not a
local file and the remote fetch answers a non-success status. -/
def importEnvC3 : ImportEnv :=
  { localFiles := [], fetchStatus := 404, fetchContent := "",
    hash := fun _ => "" }

/-- The record created by an import into an empty library. -/
def firstImportRecord (env : ImportEnv) (args : ImportArgs) (c : String) :
    PdfMetaData :=
  { args.document with
    checksum := env.hash c,
    filename := generate_name { args.document with checksum := env.hash c } }

/-- The two-import counterexample environment: same bytes both times,
no identifiers supplied by either import, distinct download URLs. -/
def envImp : ImportEnv :=
  { localFiles := [], fetchStatus := 200, fetchContent := "BYTES",
    hash := fun _ => "h" }

def impA : ImportArgs :=
  { download := "https://a/x.pdf",
    document := { checksum := "", identifiers := [], filename := "" },
    storage := "/s" }

def impB : ImportArgs :=
  { download := "https://mirror/x.pdf",
    document := { checksum := "", identifiers := [], filename := "" },
    storage := "/s" }

/-- Witness for C5's amended theorem: two imports of the byte string
`"B"` (a local file both times) sharing the identifier `"i1"`. -/
def envW : ImportEnv :=
  { localFiles := [("loc.pdf", "B")], fetchStatus := 200, fetchContent := "B",
    hash := fun s => "H" ++ s }

def impW1 : ImportArgs :=
  { download := "loc.pdf",
    document := { checksum := "", identifiers := ["i1"], filename := "" },
    storage := "/s" }

/-- The relation maintained while annotations are appended: every source
page survives with identical content and non-annotation structure, its
original annotations URI-rewritten in place, and some (possibly empty)
list of appended annotations. -/
def pagesRel (rwF : String → String) (orig w : PdfDoc) : Prop :=
  ∀ (j : Nat) (p : PdfPage), orig.pages.get? j = some p →
    ∃ added : List PdfAnnot,
      w.pages.get? j
        = some { content := p.content, nonAnnot := p.nonAnnot,
                 annots := p.annots.map (rewriteAnnot rwF) ++ added }

/-- A one-page concrete document for the C8 witness. -/
def pageW : PdfPage :=
  { content := "CNT", nonAnnot := "RES",
    annots := [{ action_uri := some "http://x", other := "o" }] }

def docW : PdfDoc :=
  { pages := [pageW], trailer := "T",
    destInfos := [{ title := "D", left := some (.float 1), top := some (.float 2) }] }

def pfZero : DestInfo → Option Int := fun _ => some 0

def intCoordInfo : DestInfo :=
  { title := "IntCoord", left := some (.int 1), top := some (.int 2) }

/-- The `CiteCommand` that `create_edited_pdf.linker` builds for a
destination: the open context's reference/storage/bibtex/knowledge, the
destination's first title, and its page number. -/
def citeOf (args : OpenArgs) (d : Destination) : CiteArgs :=
  { uri := args.uri, storage := args.storage,
    dest := d.names.headD "", page := d.page,
    bibtex := args.bibtex, knowledge := args.knowledge }

def fig1Info : DestInfo :=
  { title := "Fig1", left := some (.float 10), top := some (.float 20) }

def figure1Info : DestInfo :=
  { title := "Figure1", left := some (.float 10), top := some (.float 20) }

def argsW : OpenArgs := { uri := "u", storage := "s" }

/-- The Destination the two aliased entries collapse into. -/
def destW : Destination :=
  { left := 10, top := 20, page := 0, names := ["Fig1", "Figure1"] }

/-! ## Theorems settling the claims -/

/-- Case analysis of the host-dispatch computation: identity off the
authority hosts, fixed tag plus path slice on them. -/
theorem identifier_of_uri_cases (uri : String) :
    (¬ ((((urlparse uri).scheme = "https" ∨ (urlparse uri).scheme = "http")) ∧
        ((urlparse uri).netloc = "arxiv.org" ∨ (urlparse uri).netloc = "doi.org" ∨
          (urlparse uri).netloc = "dx.doi.org")) →
      identifier_of_uri uri = uri)
  ∧ (((urlparse uri).scheme = "https" ∨ (urlparse uri).scheme = "http") →
      (urlparse uri).netloc = "arxiv.org" →
      identifier_of_uri uri = "arXiv:" ++ (urlparse uri).path.drop 5)
  ∧ (((urlparse uri).scheme = "https" ∨ (urlparse uri).scheme = "http") →
      ((urlparse uri).netloc = "doi.org" ∨ (urlparse uri).netloc = "dx.doi.org") →
      identifier_of_uri uri = "doi:" ++ (urlparse uri).path.drop 1) := by
  refine ⟨?_, ?_, ?_⟩
  · intro h
    simp only [identifier_of_uri]
    split_ifs with h1 h2 h3
    · exact absurd ⟨h1, Or.inl h2⟩ h
    · exact absurd ⟨h1, Or.inr h3⟩ h
    · rfl
    · rfl
  · intro hs hn
    simp only [identifier_of_uri]
    split_ifs
    rfl
  · intro hs hn
    simp only [identifier_of_uri]
    split_ifs with h2
    · rcases hn with h | h
      · exact absurd (h2.symm.trans h) (by decide)
      · exact absurd (h2.symm.trans h) (by decide)
    · rfl

/-- C9 counterexample: on `"http://[x"` the extracted netloc `"[x"` has
an unbalanced bracket, so `identifier_of_uri` raises
`ValueError("Invalid IPv6 URL")` from `urlparse` — it neither succeeds
nor returns the (non-authority) reference unchanged, refuting both the
totality and the identity part of the claim at this input. -/
theorem identifier_of_uri_ipv6_cex :
    identifier_of_uri_checked "http://[x"
      = .error (.valueError "Invalid IPv6 URL")
  ∧ identifier_of_uri_checked "http://[x" ≠ .ok "http://[x" := by
  refine ⟨rfl, ?_⟩
  intro h
  have he : identifier_of_uri_checked "http://[x"
      = .error (.valueError "Invalid IPv6 URL") := rfl
  rw [he] at h
  exact Except.noConfusion h

theorem bracket_free_not_invalid (uri : String)
    (h : bracket_free (urlparse uri).netloc = true) :
    invalid_ipv6_url uri = false := by
  rw [bracket_free, Bool.and_eq_true, Bool.not_eq_true', Bool.not_eq_true'] at h
  simp only [invalid_ipv6_url, h.1, h.2]
  rfl

theorem identifier_of_uri_checked_ok (uri : String)
    (hno : invalid_ipv6_url uri = false) :
    identifier_of_uri_checked uri = .ok (identifier_of_uri uri) := by
  rw [identifier_of_uri_checked, urlparse_checked, if_neg (by simp [hno])]
  rw [identifier_of_uri]
  dsimp only
  split_ifs <;> rfl

/-- C9 amended: the normaliser raises `ValueError("Invalid IPv6 URL")`
for references whose extracted netloc contains an unbalanced square
bracket — so it is not total; for every reference whose extracted netloc
is bracket-free it never fails, and then it returns the reference
unchanged unless it is an http/https URL whose host is `arxiv.org`,
`doi.org` or `dx.doi.org`, in which case it returns the fixed per-host
tag followed by a slice of the URL path. -/
theorem identifier_of_uri_checked_spec (uri : String) :
    (invalid_ipv6_url uri = true →
      identifier_of_uri_checked uri = .error (.valueError "Invalid IPv6 URL"))
  ∧ (bracket_free (urlparse uri).netloc = true →
      identifier_of_uri_checked uri = .ok (identifier_of_uri uri))
  ∧ (bracket_free (urlparse uri).netloc = true →
      ¬ ((((urlparse uri).scheme = "https" ∨ (urlparse uri).scheme = "http")) ∧
        ((urlparse uri).netloc = "arxiv.org" ∨ (urlparse uri).netloc = "doi.org" ∨
          (urlparse uri).netloc = "dx.doi.org")) →
      identifier_of_uri_checked uri = .ok uri)
  ∧ (bracket_free (urlparse uri).netloc = true →
      ((urlparse uri).scheme = "https" ∨ (urlparse uri).scheme = "http") →
      (urlparse uri).netloc = "arxiv.org" →
      identifier_of_uri_checked uri
        = .ok ("arXiv:" ++ (urlparse uri).path.drop 5))
  ∧ (bracket_free (urlparse uri).netloc = true →
      ((urlparse uri).scheme = "https" ∨ (urlparse uri).scheme = "http") →
      ((urlparse uri).netloc = "doi.org" ∨ (urlparse uri).netloc = "dx.doi.org") →
      identifier_of_uri_checked uri
        = .ok ("doi:" ++ (urlparse uri).path.drop 1)) := by
  refine ⟨?_, ?_, ?_, ?_, ?_⟩
  · intro h
    rw [identifier_of_uri_checked, urlparse_checked, if_pos h]
  · intro hb
    exact identifier_of_uri_checked_ok uri (bracket_free_not_invalid uri hb)
  · intro hb hcond
    rw [identifier_of_uri_checked_ok uri (bracket_free_not_invalid uri hb),
      (identifier_of_uri_cases uri).1 hcond]
  · intro hb hs hn
    rw [identifier_of_uri_checked_ok uri (bracket_free_not_invalid uri hb),
      (identifier_of_uri_cases uri).2.1 hs hn]
  · intro hb hs hn
    rw [identifier_of_uri_checked_ok uri (bracket_free_not_invalid uri hb),
      (identifier_of_uri_cases uri).2.2 hs hn]

/-- Witness for C9's amended theorem at concrete references: the raising
input, a bracket-free non-authority reference and a bracket-free arXiv
reference. -/
theorem identifier_of_uri_checked_spec_witness :
    invalid_ipv6_url "http://[x" = true
  ∧ identifier_of_uri_checked "http://[x"
      = .error (.valueError "Invalid IPv6 URL")
  ∧ bracket_free (urlparse "akl://open-document/?uri=x").netloc = true
  ∧ identifier_of_uri_checked "akl://open-document/?uri=x"
      = .ok "akl://open-document/?uri=x"
  ∧ identifier_of_uri_checked "https://arxiv.org/abs/1234.5678"
      = .ok ("arXiv:" ++ (urlparse "https://arxiv.org/abs/1234.5678").path.drop 5) :=
  ⟨by decide,
   (identifier_of_uri_checked_spec "http://[x").1 (by decide),
   by decide,
   (identifier_of_uri_checked_spec "akl://open-document/?uri=x").2.2.1
     (by decide) (by decide),
   (identifier_of_uri_checked_spec "https://arxiv.org/abs/1234.5678").2.2.2.1
     (by decide) (Or.inl (by decide)) (by decide)⟩

/-- C10: for an http/https URL with host `arxiv.org` the normaliser drops
exactly the first five characters of the path — whatever they are, also
for paths not beginning with `/abs/` — and for the DOI hosts it drops
exactly the first character (the leading slash when the path is
non-empty). -/
theorem identifier_of_uri_path_slice :
    (∀ uri : String,
      ((urlparse uri).scheme = "https" ∨ (urlparse uri).scheme = "http") →
      (urlparse uri).netloc = "arxiv.org" →
      identifier_of_uri uri = "arXiv:" ++ (urlparse uri).path.drop 5)
  ∧ identifier_of_uri "https://arxiv.org/pdf/1234.5678" = "arXiv:1234.5678"
  ∧ identifier_of_uri "https://arxiv.org/1234.5678" = "arXiv:.5678"
  ∧ (∀ uri : String,
      ((urlparse uri).scheme = "https" ∨ (urlparse uri).scheme = "http") →
      ((urlparse uri).netloc = "doi.org" ∨ (urlparse uri).netloc = "dx.doi.org") →
      identifier_of_uri uri = "doi:" ++ (urlparse uri).path.drop 1) := by
  refine ⟨?_, by decide, by decide, ?_⟩
  · intro uri hs hn
    exact (identifier_of_uri_cases uri).2.1 hs hn
  · intro uri hs hn
    exact (identifier_of_uri_cases uri).2.2 hs hn

/-- Witness for C10 at a non-`/abs/` arXiv path and a DOI reference. -/
theorem identifier_of_uri_path_slice_witness :
    identifier_of_uri "https://arxiv.org/pdf/9876"
      = "arXiv:" ++ (urlparse "https://arxiv.org/pdf/9876").path.drop 5
  ∧ identifier_of_uri "http://doi.org/10.5/abc"
      = "doi:" ++ (urlparse "http://doi.org/10.5/abc").path.drop 1 :=
  ⟨identifier_of_uri_path_slice.1 _ (Or.inl (by decide)) (by decide),
   identifier_of_uri_path_slice.2.2.2 _ (Or.inr (by decide)) (Or.inl (by decide))⟩

/-- C1 (code bug): encoding any `ImportCommand` raises
`ValueError("Invalid args ...")` instead of producing an
`akl://import-document/?...` URI, because the branch of `uri_of_args`
that assigns the import scheme re-tests `isinstance(args, OpenArgs)` (a
copy-paste slip making it unreachable), so the round-trip
`args_of_uri(uri_of_args(c)) == c` cannot even start for the Import
variant. -/
theorem uri_of_args_import_raises (i : ImportArgs) :
    uri_of_args (AppArgs.importCmd i)
      = Except.error (PyErr.valueError "Invalid args") := rfl

/-- C2 counterexample: on `cexMeta` the code keeps only the *first*
remaining title token (`word`), while the claim's derivation (skip the
first remaining token, concatenate the rest) predicts `problem`. -/
theorem generate_name_claim_cex :
    generate_name cexMeta = "ALBO 2020 word S c"
  ∧ generate_name_claim cexMeta = "ALBO 2020 problem S c"
  ∧ generate_name cexMeta ≠ generate_name_claim cexMeta := by
  refine ⟨by decide, by decide, by decide⟩

/-- C2 amended: for every record with a non-empty checksum,
`generate_name` is the space-join of the non-empty components (author
initials uppercased; year or placeholder; the *first* remaining title
token after stop-word removal — placeholder when nothing remains — with
hyphens stripped; the venue abbreviation of the publisher *or of the
placeholder `"L O C A L"`, which abbreviates to the empty component*;
the checksum). -/
theorem generate_name_amended_ok (m : PdfMetaData) (_h : m.checksum ≠ "") :
    generate_name m = generate_name_amended m := rfl

/-- Witness for C2's amended theorem. -/
theorem generate_name_amended_ok_witness :
    cexMeta.checksum ≠ ""
  ∧ generate_name cexMeta = generate_name_amended cexMeta :=
  ⟨by decide, generate_name_amended_ok cexMeta (by decide)⟩

theorem maybe_of_list_eq_some {α : Type} (l : List α) (m : α) :
    maybe_of_list l = some m ↔ l = [m] := by
  cases l with
  | nil => simp [maybe_of_list]
  | cons x xs =>
    cases xs with
    | nil => simp [maybe_of_list]
    | cons y ys => simp [maybe_of_list]

/-- C4: the resolver tries a path match first (returning the record iff
exactly one record carries the file's content checksum, falling through
on zero or several matches — in particular when two records share the
checksum), and then the normalised-identifier match (returning the record
iff exactly one record's identifier set contains it, absent otherwise). -/
theorem maybe_resolve_uri_strict_order (hash : String → String)
    (fs : List (String × String)) (uri : String) (data : List PdfMetaData) :
    (∀ c m, alookup fs uri = some c → duplicates data (hash c) = [m] →
      maybe_resolve_uri hash fs uri data = some m)
  ∧ (alookup fs uri = none →
      maybe_resolve_uri hash fs uri data
        = maybe_resolve_identifier (identifier_of_uri uri) data)
  ∧ (∀ c, alookup fs uri = some c → (duplicates data (hash c)).length ≠ 1 →
      maybe_resolve_uri hash fs uri data
        = maybe_resolve_identifier (identifier_of_uri uri) data)
  ∧ (∀ m, maybe_resolve_identifier (identifier_of_uri uri) data = some m ↔
      data.filter (fun d => d.identifiers.contains (identifier_of_uri uri)) = [m]) := by
  have hstep2 :
      (match maybe_resolve_identifier (identifier_of_uri uri) data with
        | some m2 => some m2
        | none => none)
        = maybe_resolve_identifier (identifier_of_uri uri) data := by
    cases maybe_resolve_identifier (identifier_of_uri uri) data <;> rfl
  refine ⟨?_, ?_, ?_, ?_⟩
  · intro c m hc hd
    simp only [maybe_resolve_uri, maybe_resolve_filepath, hc, hd]
  · intro hc
    simp only [maybe_resolve_uri, maybe_resolve_filepath, hc]
    exact hstep2
  · intro c hc hlen
    have hfall :
        (match duplicates data (hash c) with
          | [d] => some d
          | _ => none : Option PdfMetaData) = none := by
      rcases hdup : duplicates data (hash c) with _ | ⟨d, _ | ⟨d2, rest⟩⟩
      · rfl
      · exact absurd (by rw [hdup]; rfl) hlen
      · rfl
    simp only [maybe_resolve_uri, maybe_resolve_filepath, hc, hfall]
    exact hstep2
  · intro m
    exact maybe_of_list_eq_some _ m

/-- Witness for C4: with two same-checksum records the path step is
ambiguous and resolution falls through to the identifier step; with a
unique checksum match the path step returns it. -/
theorem maybe_resolve_uri_strict_order_witness :
    maybe_resolve_uri hashW [("/tmp/f", "X")] "/tmp/f" [recA, recB]
      = maybe_resolve_identifier (identifier_of_uri "/tmp/f") [recA, recB]
  ∧ maybe_resolve_uri hashW [("/tmp/g", "Y")] "/tmp/g" [recA, recB, recC]
      = some recC :=
  ⟨(maybe_resolve_uri_strict_order hashW [("/tmp/f", "X")] "/tmp/f"
      [recA, recB]).2.2.1 "X" rfl (by decide),
   (maybe_resolve_uri_strict_order hashW [("/tmp/g", "Y")] "/tmp/g"
      [recA, recB, recC]).1 "Y" recC rfl (by decide)⟩

/-- C3 (code bug): with an empty library (so no similar record exists),
a remote download reference and a non-success fetch status, `do_import`
raises `AttributeError` — the failure log message reads `args.newurl`,
an attribute `ImportArgs` does not have, so the `return None` line is
never reached — and no record is appended and nothing is written to the
raw store (the state comes back unchanged, whatever it held). -/
theorem do_import_fetch_failure_raises (raw : List (String × String))
    (d : PdfMetaData) (s : String) :
    do_import importEnvC3 { data := [], raw := raw }
        { download := "https://example.org/a.pdf", document := d, storage := s }
      = (Except.error (PyErr.attributeError "newurl"), { data := [], raw := raw }) :=
  rfl

/-- Any required field of `parse_obj_open` absent yields a validation
error. -/
theorem parse_obj_open_missing (q : List (String × String))
    (h : alookup q "uri" = none ∨ alookup q "storage" = none) :
    ∃ f, parse_obj_open q = .error (.validation f) := by
  cases hu : alookup q "uri" with
  | none => exact ⟨"uri", by simp [parse_obj_open, reqField, hu]⟩
  | some v =>
    cases hs : alookup q "storage" with
    | none => exact ⟨"storage", by simp [parse_obj_open, reqField, hu, hs]⟩
    | some w =>
      rcases h with h | h
      · rw [hu] at h; cases h
      · rw [hs] at h; cases h

/-- Any required field of `parse_obj_cite` absent yields a validation
error. -/
theorem parse_obj_cite_missing (q : List (String × String))
    (h : alookup q "uri" = none ∨ alookup q "storage" = none ∨
      alookup q "dest" = none ∨ alookup q "page" = none) :
    ∃ f, parse_obj_cite q = .error (.validation f) := by
  cases hu : alookup q "uri" with
  | none => exact ⟨"uri", by simp [parse_obj_cite, reqField, hu]⟩
  | some v =>
    cases hs : alookup q "storage" with
    | none => exact ⟨"storage", by simp [parse_obj_cite, reqField, hu, hs]⟩
    | some w =>
      cases hd : alookup q "dest" with
      | none => exact ⟨"dest", by simp [parse_obj_cite, reqField, hu, hs, hd]⟩
      | some x =>
        cases hp : alookup q "page" with
        | none =>
          exact ⟨"page", by simp [parse_obj_cite, reqField, reqIntParse, hu, hs, hd, hp]⟩
        | some y =>
          rcases h with h | h | h | h
          · rw [hu] at h; cases h
          · rw [hs] at h; cases h
          · rw [hd] at h; cases h
          · rw [hp] at h; cases h

/-- Any required field of the import variant absent yields a validation
error. -/
theorem parse_obj_import_missing (pr : String → Option PdfMetaData)
    (q : List (String × String))
    (h : alookup q "download" = none ∨ alookup q "document" = none ∨
      alookup q "storage" = none) :
    ∃ f, parse_obj_import pr q = .error (.validation f) := by
  cases hd : alookup q "download" with
  | none => exact ⟨"download", by simp [parse_obj_import, hd]⟩
  | some v =>
    cases hc : alookup q "document" with
    | none => exact ⟨"document", by simp [parse_obj_import, hd, hc]⟩
    | some w =>
      cases hp : pr w with
      | none => exact ⟨"document", by simp [parse_obj_import, hd, hc, hp]⟩
      | some doc =>
        cases hs : alookup q "storage" with
        | none => exact ⟨"storage", by simp [parse_obj_import, hd, hc, hp, hs]⟩
        | some x =>
          rcases h with h | h | h
          · rw [hd] at h; cases h
          · rw [hc] at h; cases h
          · rw [hs] at h; cases h

/-- C6: the decoder fails with the protocol `ValueError` when the scheme
is not `akl`; with the command `ValueError` when the authority is not one
of the three variants; and with a (pydantic) validation error — also a
`ValueError` — when a required field of the selected variant is absent
after query-parameter extraction.  Failures are `Except.error` values, so
no partial command is ever returned. -/
theorem args_of_uri_failure_conditions (pr : String → Option PdfMetaData)
    (u : UriParts) :
    (u.scheme ≠ "akl" →
      args_of_uri pr u = .error (.unknownProtocol u.scheme))
  ∧ (u.scheme = "akl" → u.netloc ≠ "open-document" → u.netloc ≠ "cite" →
      u.netloc ≠ "import-document" →
      args_of_uri pr u = .error (.unknownCommand u.netloc))
  ∧ (u.scheme = "akl" → ∀ f ∈ requiredFields u.netloc,
      alookup (firstVals u.query) f = none →
      ∃ f2, args_of_uri pr u = .error (.validation f2)) := by
  refine ⟨?_, ?_, ?_⟩
  · intro h
    simp [args_of_uri, h]
  · intro hs ho hc hi
    simp [args_of_uri, hs, ho, hc, hi]
  · intro hs f hf hnone
    by_cases ho : u.netloc = "open-document"
    · rw [requiredFields, if_pos ho] at hf
      simp only [List.mem_cons, List.not_mem_nil, or_false] at hf
      have hmiss : alookup (firstVals u.query) "uri" = none ∨
          alookup (firstVals u.query) "storage" = none := by
        rcases hf with rfl | rfl
        · exact Or.inl hnone
        · exact Or.inr hnone
      obtain ⟨f2, hf2⟩ := parse_obj_open_missing (firstVals u.query) hmiss
      exact ⟨f2, by simp [args_of_uri, hs, ho, hf2, Except.map]⟩
    · by_cases hc : u.netloc = "cite"
      · rw [requiredFields, if_neg ho, if_pos hc] at hf
        simp only [List.mem_cons, List.not_mem_nil, or_false] at hf
        have hmiss : alookup (firstVals u.query) "uri" = none ∨
            alookup (firstVals u.query) "storage" = none ∨
            alookup (firstVals u.query) "dest" = none ∨
            alookup (firstVals u.query) "page" = none := by
          rcases hf with rfl | rfl | rfl | rfl
          · exact Or.inl hnone
          · exact Or.inr (Or.inl hnone)
          · exact Or.inr (Or.inr (Or.inl hnone))
          · exact Or.inr (Or.inr (Or.inr hnone))
        obtain ⟨f2, hf2⟩ := parse_obj_cite_missing (firstVals u.query) hmiss
        exact ⟨f2, by simp [args_of_uri, hs, ho, hc, hf2, Except.map]⟩
      · by_cases hi : u.netloc = "import-document"
        · rw [requiredFields, if_neg ho, if_neg hc, if_pos hi] at hf
          simp only [List.mem_cons, List.not_mem_nil, or_false] at hf
          have hmiss : alookup (firstVals u.query) "download" = none ∨
              alookup (firstVals u.query) "document" = none ∨
              alookup (firstVals u.query) "storage" = none := by
            rcases hf with rfl | rfl | rfl
            · exact Or.inl hnone
            · exact Or.inr (Or.inl hnone)
            · exact Or.inr (Or.inr hnone)
          obtain ⟨f2, hf2⟩ := parse_obj_import_missing pr (firstVals u.query) hmiss
          exact ⟨f2, by simp [args_of_uri, hs, ho, hc, hi, hf2, Except.map]⟩
        · rw [requiredFields, if_neg ho, if_neg hc, if_neg hi] at hf
          cases hf

/-- Witness for C6 at three concrete inputs: a wrong scheme, an unknown
authority, and a `cite` URI missing its required `dest` field. -/
theorem args_of_uri_failure_conditions_witness :
    args_of_uri (fun _ => none) { scheme := "http", netloc := "x", query := [] }
      = .error (.unknownProtocol "http")
  ∧ args_of_uri (fun _ => none) { scheme := "akl", netloc := "bogus", query := [] }
      = .error (.unknownCommand "bogus")
  ∧ ∃ f2, args_of_uri (fun _ => none)
      { scheme := "akl", netloc := "cite",
        query := [("uri", ["u"]), ("storage", ["s"]), ("page", ["3"])] }
      = .error (.validation f2) :=
  ⟨(args_of_uri_failure_conditions (fun _ => none) _).1 (by decide),
   (args_of_uri_failure_conditions (fun _ => none) _).2.1 rfl (by decide)
     (by decide) (by decide),
   (args_of_uri_failure_conditions (fun _ => none) _).2.2 rfl "dest"
     (by decide) (by decide)⟩

/-! ### The import flow: dedup behaviour (C5) -/

/-- An import into an empty library appends one record with the content's
digest and writes the raw bytes under the derived filename. -/
theorem do_import_into_empty (env : ImportEnv) (args : ImportArgs)
    (r0 : List (String × String)) (c : String)
    (h1 : contentOf env args.download = .ok c) (h2 : env.hash c ≠ "") :
    do_import env { data := [], raw := r0 } args
      = (.ok (some (firstImportRecord env args c)),
         { data := [firstImportRecord env args c],
           raw := astore r0
             (generate_name { args.document with checksum := env.hash c }) c }) := by
  simp [do_import, find_similar_to, maybe_of_list, h1, duplicates, if_neg h2,
    firstImportRecord]

/-- Second import, pre-download dedup: a similar record exists (identifier
overlap, different checksum), so its identifier set is replaced by the
merged set; nothing is fetched and the raw store is untouched. -/
theorem do_import_merge_similar (env : ImportEnv) (args : ImportArgs)
    (doc1 : PdfMetaData) (r1 : List (String × String))
    (hb : non_empty_intersection args.document.identifiers doc1.identifiers = true) :
    do_import env { data := [doc1], raw := r1 } args
      = (.ok (some { doc1 with
            identifiers := dedupF (args.document.identifiers ++ doc1.identifiers) }),
         { data := [{ doc1 with
            identifiers := dedupF (args.document.identifiers ++ doc1.identifiers) }],
           raw := r1 }) := by
  have hsim : similarPred args.document doc1 = true := by
    simp [similarPred, hb]
  have hne : dedupF (args.document.identifiers ++ doc1.identifiers) ≠ [] := by
    obtain ⟨x, hx1, _⟩ := List.any_eq_true.mp hb
    exact dedupF_ne_nil (List.mem_append.mpr (Or.inl hx1))
  rcases hm : dedupF (args.document.identifiers ++ doc1.identifiers) with _ | ⟨y, ys⟩
  · exact absurd hm hne
  · simp [do_import, find_similar_to, maybe_of_list, hsim, hm]

/-- Second import, post-download dedup: no similar record, but the fetched
content's digest collides with the existing record, so identifiers plus
the download reference are merged into it; the raw store is untouched. -/
theorem do_import_merge_dup (env : ImportEnv) (args : ImportArgs)
    (doc1 : PdfMetaData) (r1 : List (String × String)) (c : String)
    (hsim : similarPred args.document doc1 = false)
    (h5 : contentOf env args.download = .ok c)
    (hchk : doc1.checksum = env.hash c) :
    do_import env { data := [doc1], raw := r1 } args
      = (.ok (some { doc1 with
            identifiers := dedupF (args.document.identifiers ++ doc1.identifiers
              ++ [args.download]) }),
         { data := [{ doc1 with
            identifiers := dedupF (args.document.identifiers ++ doc1.identifiers
              ++ [args.download]) }],
           raw := r1 }) := by
  simp [do_import, find_similar_to, maybe_of_list, hsim, h5, duplicates, hchk]

/-- C5 counterexample: importing the same bytes twice with empty
identifier sets leaves one record whose identifier set is
`[download₂]` — *not* the union (which is empty) of the two imports'
identifier sets. -/
theorem do_import_union_cex :
    (do_import envImp (do_import envImp { data := [], raw := [] } impA).2 impB).2.data.map
        PdfMetaData.identifiers = [["https://mirror/x.pdf"]]
  ∧ impA.document.identifiers = [] ∧ impB.document.identifiers = [] :=
  ⟨by decide, rfl, rfl⟩

/-- C5 amended: importing the same byte content twice into an empty
library leaves exactly one record carrying that content's checksum; the
second import does not rewrite the raw-originals store; and the record's
identifier set is the union of both imports' identifier sets, *plus the
second import's download reference when the merge happens in the
post-download checksum check* (the pre-download similarity check, which
fires exactly when the two identifier sets intersect, adds nothing
else). -/
theorem do_import_dedup_idempotent (env1 env2 : ImportEnv)
    (args1 args2 : ImportArgs) (r0 : List (String × String)) (c : String)
    (h1 : contentOf env1 args1.download = .ok c)
    (h2 : env1.hash c ≠ "")
    (h5 : contentOf env2 args2.download = .ok c)
    (h6 : env2.hash c = env1.hash c)
    (h7 : args2.document.checksum ≠ env1.hash c) :
    ∃ rec : PdfMetaData,
      do_import env2 (do_import env1 { data := [], raw := r0 } args1).2 args2
        = (.ok (some rec),
           { data := [rec],
             raw := (do_import env1 { data := [], raw := r0 } args1).2.raw })
      ∧ rec.checksum = env1.hash c
      ∧ (∀ x, x ∈ rec.identifiers ↔
          (x ∈ args1.document.identifiers ∨ x ∈ args2.document.identifiers ∨
            (non_empty_intersection args2.document.identifiers
                args1.document.identifiers = false ∧ x = args2.download))) := by
  have hrun1 := do_import_into_empty env1 args1 r0 c h1 h2
  rw [hrun1]
  by_cases hb : non_empty_intersection args2.document.identifiers
      args1.document.identifiers = true
  · -- pre-download dedup fires
    have hb2 : non_empty_intersection args2.document.identifiers
        (firstImportRecord env1 args1 c).identifiers = true := hb
    refine ⟨{ firstImportRecord env1 args1 c with
        identifiers := dedupF (args2.document.identifiers
          ++ (firstImportRecord env1 args1 c).identifiers) },
      do_import_merge_similar env2 args2 (firstImportRecord env1 args1 c) _ hb2,
      rfl, ?_⟩
    intro x
    show x ∈ dedupF (args2.document.identifiers
      ++ (firstImportRecord env1 args1 c).identifiers) ↔ _
    rw [mem_dedupF, List.mem_append, hb]
    show x ∈ args2.document.identifiers ∨ x ∈ args1.document.identifiers ↔ _
    constructor
    · rintro (hx | hx)
      · exact Or.inr (Or.inl hx)
      · exact Or.inl hx
    · rintro (hx | hx | ⟨hfalse, _⟩)
      · exact Or.inr hx
      · exact Or.inl hx
      · cases hfalse
  · -- post-download dedup fires
    have hb0 : non_empty_intersection args2.document.identifiers
        args1.document.identifiers = false := by
      simpa using hb
    have hsim : similarPred args2.document (firstImportRecord env1 args1 c) = false := by
      simp only [similarPred, firstImportRecord, Bool.or_eq_false_iff]
      exact ⟨beq_eq_false_iff_ne.mpr (Ne.symm h7), hb0⟩
    have hchk : (firstImportRecord env1 args1 c).checksum = env2.hash c := h6.symm
    refine ⟨{ firstImportRecord env1 args1 c with
        identifiers := dedupF (args2.document.identifiers
          ++ (firstImportRecord env1 args1 c).identifiers ++ [args2.download]) },
      do_import_merge_dup env2 args2 (firstImportRecord env1 args1 c) _ c
        hsim h5 hchk,
      rfl, ?_⟩
    intro x
    show x ∈ dedupF (args2.document.identifiers
      ++ (firstImportRecord env1 args1 c).identifiers ++ [args2.download]) ↔ _
    rw [mem_dedupF, List.mem_append, List.mem_append, hb0]
    show (x ∈ args2.document.identifiers ∨ x ∈ args1.document.identifiers) ∨
        x ∈ [args2.download] ↔ _
    simp only [List.mem_singleton, true_and]
    constructor
    · rintro ((hx | hx) | hx)
      · exact Or.inr (Or.inl hx)
      · exact Or.inl hx
      · exact Or.inr (Or.inr hx)
    · rintro (hx | hx | hx)
      · exact Or.inl (Or.inr hx)
      · exact Or.inl (Or.inl hx)
      · exact Or.inr hx

theorem do_import_dedup_idempotent_witness :
    contentOf envW impW1.download = .ok "B"
  ∧ envW.hash "B" ≠ ""
  ∧ impW1.document.checksum ≠ envW.hash "B"
  ∧ ∃ rec : PdfMetaData,
      do_import envW (do_import envW { data := [], raw := [] } impW1).2 impW1
        = (.ok (some rec),
           { data := [rec],
             raw := (do_import envW { data := [], raw := [] } impW1).2.raw })
      ∧ rec.checksum = envW.hash "B"
      ∧ (∀ x, x ∈ rec.identifiers ↔
          (x ∈ impW1.document.identifiers ∨ x ∈ impW1.document.identifiers ∨
            (non_empty_intersection impW1.document.identifiers
                impW1.document.identifiers = false ∧ x = impW1.download))) :=
  ⟨rfl, by decide, by decide,
   do_import_dedup_idempotent envW envW impW1 impW1 [] "B" rfl (by decide) rfl
     rfl (by decide)⟩

/-! ### The rewriter frame property (C8) -/

theorem length_modifyPage (pages : List PdfPage) (f : PdfPage → PdfPage) :
    ∀ i : Nat, (modifyPage pages i f).length = pages.length := by
  induction pages with
  | nil => intro i; cases i <;> rfl
  | cons p ps ih =>
    intro i
    cases i with
    | zero => rfl
    | succ j => simpa [modifyPage] using ih j

theorem get?_modifyPage (pages : List PdfPage) (f : PdfPage → PdfPage) :
    ∀ (i j : Nat), (modifyPage pages i f).get? j
      = if j = i then (pages.get? j).map f else pages.get? j := by
  induction pages with
  | nil =>
    intro i j
    cases i <;> simp [modifyPage]
  | cons p ps ih =>
    intro i j
    cases i with
    | zero =>
      cases j with
      | zero => simp [modifyPage]
      | succ jj => simp [modifyPage]
    | succ ii =>
      cases j with
      | zero => simp [modifyPage]
      | succ jj => simpa [modifyPage, Nat.succ_eq_add_one] using ih ii jj

theorem add_annot_pagesRel (rwF : String → String) (orig w : PdfDoc)
    (n : Int) (a : PdfAnnot) (h : pagesRel rwF orig w) :
    pagesRel rwF orig (add_annot w n a) := by
  intro j p hp
  obtain ⟨added, hw⟩ := h j p hp
  have key : ∀ K : Nat, ∃ added2 : List PdfAnnot,
      (modifyPage w.pages K (fun q => { q with annots := q.annots ++ [a] })).get? j
        = some { content := p.content, nonAnnot := p.nonAnnot,
                 annots := p.annots.map (rewriteAnnot rwF) ++ added2 } := by
    intro K
    by_cases hj : j = K
    · refine ⟨added ++ [a], ?_⟩
      rw [get?_modifyPage, if_pos hj, hw]
      simp [List.append_assoc]
    · refine ⟨added, ?_⟩
      rw [get?_modifyPage, if_neg hj, hw]
  rw [add_annot]
  split_ifs <;> first
    | exact ⟨added, hw⟩
    | exact key _

theorem add_annot_length (w : PdfDoc) (n : Int) (a : PdfAnnot) :
    (add_annot w n a).pages.length = w.pages.length := by
  rw [add_annot]
  split_ifs <;> first
    | rfl
    | exact length_modifyPage _ _ _

theorem add_annot_trailer (w : PdfDoc) (n : Int) (a : PdfAnnot) :
    (add_annot w n a).trailer = w.trailer := by
  rw [add_annot]
  split_ifs <;> rfl

/-- A fold preserves any invariant its step preserves. -/
theorem foldl_invariant {β : Type} (P : PdfDoc → Prop) (step : PdfDoc → β → PdfDoc)
    (hstep : ∀ w b, P w → P (step w b)) :
    ∀ (l : List β) (w : PdfDoc), P w → P (l.foldl step w) := by
  intro l
  induction l with
  | nil => intro w hw; exact hw
  | cons b bs ih => intro w hw; exact ih _ (hstep w b hw)

/-- C8: the annotation rewriter preserves the page count and, for every
page, the content streams and non-annotation structure byte-for-byte, as
well as the trailer structure; a page's annotation array becomes its
original annotations with URI actions rewritten in place, followed by
some appended annotations — nothing else changes. -/
theorem custom_pdf_creation_frame (pf : DestInfo → Option Int) (reader : PdfDoc)
    (linkerF : Destination → List PdfAnnot) (rewriter : String → String) :
    (custom_pdf_creation pf reader linkerF rewriter).pages.length
      = reader.pages.length
  ∧ (custom_pdf_creation pf reader linkerF rewriter).trailer = reader.trailer
  ∧ (∀ (j : Nat) (p : PdfPage), reader.pages.get? j = some p →
      ∃ added : List PdfAnnot,
        (custom_pdf_creation pf reader linkerF rewriter).pages.get? j
          = some { content := p.content, nonAnnot := p.nonAnnot,
                   annots := p.annots.map (rewriteAnnot rewriter) ++ added }) := by
  have main :
      (fun w : PdfDoc => w.pages.length = reader.pages.length
        ∧ w.trailer = reader.trailer ∧ pagesRel rewriter reader w)
        (custom_pdf_creation pf reader linkerF rewriter) := by
    rw [custom_pdf_creation]
    apply foldl_invariant
      (fun w : PdfDoc => w.pages.length = reader.pages.length
        ∧ w.trailer = reader.trailer ∧ pagesRel rewriter reader w)
    · intro w d hw
      apply foldl_invariant
        (fun w : PdfDoc => w.pages.length = reader.pages.length
          ∧ w.trailer = reader.trailer ∧ pagesRel rewriter reader w)
      · intro w2 obj hw2
        exact ⟨(add_annot_length w2 d.page obj).trans hw2.1,
          (add_annot_trailer w2 d.page obj).trans hw2.2.1,
          add_annot_pagesRel rewriter reader w2 d.page obj hw2.2.2⟩
      · exact hw
    · refine ⟨by simp, rfl, ?_⟩
      intro j p hp
      refine ⟨[], ?_⟩
      simp only [List.get?_map, hp, Option.map_some', List.append_nil]
  exact ⟨main.1, main.2.1, main.2.2⟩

/-- Witness for C8 on a concrete one-page document. -/
theorem custom_pdf_creation_frame_witness :
    (custom_pdf_creation (fun _ => some 0) docW
        (fun _ => [{ action_uri := none, other := "marker" }]) (fun s => s ++ "!")
      ).pages.length = docW.pages.length
  ∧ ∃ added : List PdfAnnot,
      (custom_pdf_creation (fun _ => some 0) docW
          (fun _ => [{ action_uri := none, other := "marker" }]) (fun s => s ++ "!")
        ).pages.get? 0
        = some { content := pageW.content, nonAnnot := pageW.nonAnnot,
                 annots := pageW.annots.map (rewriteAnnot (fun s => s ++ "!")) ++ added } :=
  ⟨(custom_pdf_creation_frame (fun _ => some 0) docW
      (fun _ => [{ action_uri := none, other := "marker" }]) (fun s => s ++ "!")).1,
   (custom_pdf_creation_frame (fun _ => some 0) docW
      (fun _ => [{ action_uri := none, other := "marker" }]) (fun s => s ++ "!")).2.2
     0 pageW rfl⟩

/-! ### Destination grouping (C7) -/

theorem any_nkey_map_addLoc (gs : List GroupEntry) (nk : NKey) (i : DestInfo)
    (x : NKey) :
    (gs.map (fun g =>
        if g.nkey == nk then { g with infos := g.infos ++ [i] } else g)).any
      (fun g => g.nkey == x)
      = gs.any (fun g => g.nkey == x) := by
  rw [List.any_map]
  congr 1
  funext g
  by_cases hg : g.nkey == nk <;> simp [Function.comp, hg]

/-- The dict-building fold, from an arbitrary accumulator: existing groups
collect their matching entries, and the fresh keys are grouped
declaratively behind them. -/
theorem foldl_addLoc_eq (pf : DestInfo → Option Int) :
    ∀ (l : List DestInfo) (gs : List GroupEntry),
      l.foldl (addLoc pf) gs
        = gs.map (fun g => { g with
            infos := g.infos ++ l.filter (fun j => nkeyOf pf j == g.nkey) })
          ++ groupLocs pf (l.filter (fun j =>
              !(gs.any (fun g => g.nkey == nkeyOf pf j)))) := by
  intro l
  induction l with
  | nil =>
    intro gs
    simp only [List.foldl_nil, List.filter_nil, List.append_nil, groupLocs_nil]
    have : (fun g : GroupEntry => { g with infos := g.infos }) = id := by
      funext g
      rfl
    rw [this, List.map_id]
  | cons i is ih =>
    intro gs
    rw [List.foldl_cons, ih (addLoc pf gs i)]
    by_cases hmem : gs.any (fun g => g.nkey == nkeyOf pf i) = true
    · -- the entry's key is already a group: it is appended to that group
      rw [addLoc, if_pos hmem]
      congr 1
      · -- the accumulated-groups part
        rw [List.map_map]
        apply List.map_congr_left
        intro g _
        by_cases hg : (g.nkey == nkeyOf pf i) = true
        · have hg2 : (nkeyOf pf i == g.nkey) = true := by
            rw [beq_iff_eq] at hg ⊢
            exact hg.symm
          simp [Function.comp, hg, hg2, List.filter_cons, List.append_assoc]
        · have hg1 : (g.nkey == nkeyOf pf i) = false := by
            simpa using hg
          have hg2 : (nkeyOf pf i == g.nkey) = false := by
            rw [beq_eq_false_iff_ne] at hg1 ⊢
            exact fun h => hg1 h.symm
          simp [Function.comp, hg1, hg2, List.filter_cons]
      · -- the fresh part: the accumulator's key set is unchanged
        have hfresh : (i :: is).filter (fun j =>
            !(gs.any (fun g => g.nkey == nkeyOf pf j)))
            = is.filter (fun j => !(gs.any (fun g => g.nkey == nkeyOf pf j))) := by
          rw [List.filter_cons]
          simp [hmem]
        rw [hfresh]
        congr 1
        apply List.filter_congr
        intro j _
        rw [any_nkey_map_addLoc]
    · -- fresh key: a new group is opened at the end
      have hmem0 : gs.any (fun g => g.nkey == nkeyOf pf i) = false := by
        simpa using hmem
      rw [addLoc, if_neg hmem, List.map_append]
      have hfresh : (i :: is).filter (fun j =>
          !(gs.any (fun g => g.nkey == nkeyOf pf j)))
          = i :: is.filter (fun j => !(gs.any (fun g => g.nkey == nkeyOf pf j))) := by
        rw [List.filter_cons]
        simp [hmem0]
      rw [hfresh, groupLocs_cons]
      have hsub1 : (is.filter (fun j => !(gs.any (fun g => g.nkey == nkeyOf pf j)))).filter
          (fun j => nkeyOf pf j == nkeyOf pf i)
          = is.filter (fun j => nkeyOf pf j == nkeyOf pf i) := by
        rw [List.filter_filter]
        apply List.filter_congr
        intro j _
        by_cases hj : nkeyOf pf j = nkeyOf pf i
        · simp [hj, hmem0]
        · simp [beq_eq_false_iff_ne.mpr hj]
      have hsub2 : (is.filter (fun j => !(gs.any (fun g => g.nkey == nkeyOf pf j)))).filter
          (fun j => !(nkeyOf pf j == nkeyOf pf i))
          = is.filter (fun j =>
              !((gs ++ [(⟨nkeyOf pf i, keyOf pf i, [i]⟩ : GroupEntry)]).any
                (fun g => g.nkey == nkeyOf pf j))) := by
        rw [List.filter_filter]
        apply List.filter_congr
        intro j _
        rw [List.any_append]
        by_cases hj : nkeyOf pf j = nkeyOf pf i
        · simp [hj]
        · have h2 : (nkeyOf pf i == nkeyOf pf j) = false :=
            beq_eq_false_iff_ne.mpr (fun h => hj h.symm)
          simp [h2, beq_eq_false_iff_ne.mpr hj]
      rw [hsub1, hsub2, List.append_assoc]
      -- the tail components agree definitionally; the existing groups
      -- collect nothing from the fresh-keyed entry
      congr 1
      apply List.map_congr_left
      intro g hgmem
      have hone := (List.any_eq_false.mp hmem0) g hgmem
      have hone' : (g.nkey == nkeyOf pf i) = false := by
        simpa using hone
      have hgne : (nkeyOf pf i == g.nkey) = false := by
        rw [beq_eq_false_iff_ne] at hone' ⊢
        exact fun h => hone' h.symm
      rw [List.filter_cons]
      simp [hgne]

/-- The dict grouping of the source equals the declarative grouping. -/
theorem destinations_eq_spec (pf : DestInfo → Option Int) (infos : List DestInfo) :
    destinations_from_pdf pf infos = destinations_spec pf infos := by
  rw [destinations_from_pdf, destinations_spec]
  congr 1
  rw [foldl_addLoc_eq pf _ []]
  simp

theorem groupLocsF_infos_ne_nil (pf : DestInfo → Option Int) :
    ∀ (fuel : Nat) (l : List DestInfo) (g : GroupEntry),
      g ∈ groupLocsF pf fuel l → g.infos ≠ [] := by
  intro fuel
  induction fuel with
  | zero =>
    intro l g hg
    rcases l with _ | ⟨i, is⟩ <;> simp [groupLocsF] at hg
  | succ f ih =>
    intro l g hg
    rcases l with _ | ⟨i, is⟩
    · simp [groupLocsF] at hg
    · rw [groupLocsF] at hg
      rcases List.mem_cons.mp hg with rfl | hg2
      · simp
      · exact ih _ g hg2

/-- Every produced destination carries at least one title. -/
theorem destinations_names_ne_nil (pf : DestInfo → Option Int)
    (infos : List DestInfo) :
    ∀ d ∈ destinations_from_pdf pf infos, d.names ≠ [] := by
  intro d hd
  rw [destinations_eq_spec, destinations_spec] at hd
  obtain ⟨g, hg, hsome⟩ := List.mem_filterMap.mp hd
  rw [groupLocs] at hg
  have hne := groupLocsF_infos_ne_nil pf _ _ g hg
  rcases g with ⟨nk, ⟨ol, ot, op⟩, gis⟩
  rcases ol with _ | n1
  · exact Option.noConfusion hsome
  · rcases n1 with n | q1
    · exact Option.noConfusion hsome
    · rcases ot with _ | n2
      · exact Option.noConfusion hsome
      · rcases n2 with n | q2
        · exact Option.noConfusion hsome
        · rcases op with _ | p
          · exact Option.noConfusion hsome
          · have hd2 := Option.some.inj hsome
            rw [← hd2]
            simpa using hne

/-- C7 counterexample: a navigation entry whose coordinates are pdf
*integer* objects has coordinate and page data present, so the claim
makes its group produce one Destination — but the source's
`isinstance(left, float)` check drops the group, producing none. -/
theorem destinations_claim_cex :
    destinations_from_pdf pfZero [intCoordInfo] = []
  ∧ destinations_claim pfZero [intCoordInfo]
      = [{ left := 1, top := 2, page := 0, names := ["IntCoord"] }] := by
  constructor <;> decide

/-- C7 amended: entries with a blank title or missing coordinate data are
dropped; the remainder is grouped by (Python `dict`-key) equality of
`(left, top, resolved page number)`, each group carrying all its titles in
encounter order; a group produces exactly one Destination when its
first-encountered key holds `float` coordinates and a resolved page, and
*no* Destination otherwise; and each Destination yields exactly one
marker annotation plus one link annotation whose `CiteCommand` uses the
destination's first title and page number. -/
theorem destination_grouping_spec (pf : DestInfo → Option Int)
    (infos : List DestInfo) (args : OpenArgs) :
    destinations_from_pdf pf infos = destinations_spec pf infos
  ∧ (∀ d ∈ destinations_from_pdf pf infos, d.names ≠ [])
  ∧ (∀ d : Destination,
      linker args d
        = [BuiltAnnot.free_text "A" [d.left - 2, d.top - 2, d.left + 2, d.top + 2],
           BuiltAnnot.link [d.left - 2, d.top - 2, d.left + 2, d.top + 2]
             (uri_of_cite (citeOf args d))]
      ∧ (linker args d).length = 2
      ∧ linkUrls (linker args d) = [uri_of_cite (citeOf args d)]) :=
  ⟨destinations_eq_spec pf infos,
   destinations_names_ne_nil pf infos,
   fun _ => ⟨rfl, rfl, rfl⟩⟩

/-- Witness for C7: the spec's two-aliases-one-location scenario. -/
theorem destination_grouping_spec_witness :
    destinations_from_pdf pfZero [fig1Info, figure1Info]
      = destinations_spec pfZero [fig1Info, figure1Info]
  ∧ destW.names ≠ []
  ∧ (linker argsW destW).length = 2 :=
  ⟨(destination_grouping_spec pfZero [fig1Info, figure1Info] argsW).1,
   (destination_grouping_spec pfZero [fig1Info, figure1Info] argsW).2.1
     destW (by decide),
   ((destination_grouping_spec pfZero [fig1Info, figure1Info] argsW).2.2
     destW).2.1⟩

end Akl
